import Mathlib

/-
  Verification of the ILI9342C display driver (src/lib.rs).

  The driver talks to a write-only command/data transport
  (display_interface::WriteOnlyDataCommand) and to a millisecond delay
  provider.  We embed both as a single recording interface: every opcode
  byte sent on the command channel, every byte list sent on the data
  channel and every delay call is appended to a trace.  A failure schedule
  (the index of the first transport call that errors) models an injected
  transport error; on error the recorded trace so far is returned so that
  the abort behaviour is observable.
-/

namespace Ili9342

/-- One observable interaction with the hardware: an opcode byte on the
command channel, a list of bytes on the data channel, or a blocking delay
in milliseconds. -/
inductive Event where
  | command (b : Nat) : Event
  | data (bs : List Nat) : Event
  | delay (ms : Nat) : Event
  deriving DecidableEq, Repr

/-- Recording model of the write-only display interface: the events sent so
far, the number of fallible transport calls made so far, and an optional
index of the first transport call that fails. -/
structure Iface where
  sent : List Event
  calls : Nat
  failAt : Option Nat
  deriving DecidableEq, Repr

/-- Make one fallible transport call: fail if the schedule says this call
fails, otherwise record the event. -/
def Iface.send (st : Iface) (e : Event) : Except Iface Iface :=
  if st.failAt = some st.calls then .error st
  else .ok { st with sent := st.sent ++ [e], calls := st.calls + 1 }

/-- send_commands of WriteOnlyDataCommand: one opcode byte (U8Iter). -/
def Iface.send_commands (st : Iface) (b : Nat) : Except Iface Iface :=
  st.send (.command b)

/-- send_data of WriteOnlyDataCommand: argument bytes (U8Iter), already
serialised to a byte list. -/
def Iface.send_data (st : Iface) (bs : List Nat) : Except Iface Iface :=
  st.send (.data bs)

/-- The delay collaborator (embedded_hal DelayMs): records the delay; it
cannot fail and is not a transport call. -/
def Iface.delay_ms (st : Iface) (ms : Nat) : Iface :=
  { st with sent := st.sent ++ [.delay ms] }

/-- Serialisation used by DataFormat::U16BEIter: each 16-bit word is sent
as two bytes, high byte first. -/
def u16beBytes (ws : List Nat) : List Nat :=
  ws.flatMap fun w => [w / 256 % 256, w % 256]

/-- Truncating cast of a signed coordinate to u16, as in Rust `as u16`. -/
def u16ofInt (x : Int) : Nat := (x % 65536).toNat

/- Geometry from embedded_graphics_core, as used by the driver. -/

/-- A point with signed integer coordinates (embedded-graphics Point). -/
structure Point where
  x : Int
  y : Int
  deriving DecidableEq, Repr

/-- An unsigned pixel size (embedded-graphics Size). -/
structure Size where
  width : Nat
  height : Nat
  deriving DecidableEq, Repr

/-- An axis-aligned rectangle given by its top-left corner and size. -/
structure Rectangle where
  top_left : Point
  size : Size
  deriving DecidableEq, Repr

/-- Rectangle::bottom_right: the inclusive bottom-right corner, or none for
a zero-sized rectangle. -/
def Rectangle.bottom_right (R : Rectangle) : Option Point :=
  if 0 < R.size.width ∧ 0 < R.size.height then
    some ⟨R.top_left.x + R.size.width - 1, R.top_left.y + R.size.height - 1⟩
  else none

/-- Rectangle::contains for points (embedded-graphics ContainsPoint). -/
def Rectangle.contains (R : Rectangle) (p : Point) : Bool :=
  if R.top_left.x ≤ p.x ∧ R.top_left.y ≤ p.y then
    match R.bottom_right with
    | some br => decide (p.x ≤ br.x ∧ p.y ≤ br.y)
    | none => false
  else false

/-- Componentwise minimum of two points. -/
def component_min (a b : Point) : Point := ⟨min a.x b.x, min a.y b.y⟩

/-- Componentwise maximum of two points. -/
def component_max (a b : Point) : Point := ⟨max a.x b.x, max a.y b.y⟩

/-- Rectangle::with_corners: the rectangle spanned by two corner points,
borders included. -/
def Rectangle.with_corners (c1 c2 : Point) : Rectangle :=
  ⟨⟨min c1.x c2.x, min c1.y c2.y⟩,
   ⟨(max c1.x c2.x - min c1.x c2.x + 1).toNat,
    (max c1.y c2.y - min c1.y c2.y + 1).toNat⟩⟩

/-- Overlap test for two inclusive integer ranges (embedded-graphics
`overlaps` helper on RangeInclusive). -/
def overlapsRange (s1 e1 s2 e2 : Int) : Bool :=
  decide ((s2 ≤ s1 ∧ s1 ≤ e2) ∨ (s2 ≤ e1 ∧ e1 ≤ e2) ∨
          (s1 ≤ s2 ∧ s2 ≤ e1) ∨ (s1 ≤ e2 ∧ e2 ≤ e1))

/-- Rectangle::intersection: the overlapping part of two rectangles, or a
zero-sized rectangle when they do not overlap. -/
def Rectangle.intersection (R other : Rectangle) : Rectangle :=
  match other.bottom_right, R.bottom_right with
  | some obr, some sbr =>
    if overlapsRange R.top_left.x sbr.x other.top_left.x obr.x = true ∧
       overlapsRange R.top_left.y sbr.y other.top_left.y obr.y = true then
      Rectangle.with_corners (component_max R.top_left other.top_left)
        (component_min sbr obr)
    else ⟨⟨0, 0⟩, ⟨0, 0⟩⟩
  | _, _ => ⟨⟨0, 0⟩, ⟨0, 0⟩⟩

/-- Rectangle::points: all points of the rectangle in row-major order
(left to right, then top to bottom). -/
def Rectangle.points (R : Rectangle) : List Point :=
  (List.range R.size.height).flatMap fun (dy : Nat) =>
    (List.range R.size.width).map fun (dx : Nat) =>
      ⟨R.top_left.x + (dx : Int), R.top_left.y + (dy : Int)⟩

/- The driver itself. -/

/-- Protocol opcodes of the controller (the Command enum). -/
inductive Command where
  | SoftwareReset | SleepModeOn | SleepModeOff | InvertOff | InvertOn
  | DisplayOff | DisplayOn | ColumnAddressSet | PageAddressSet | MemoryWrite
  | PixelFormatSet | VerticalScrollDefine | MemoryAccessControl
  | VerticalScrollAddr | IdleModeOff | IdleModeOn | SetBrightness
  | ContentAdaptiveBrightness | RBGInterface | FrameControl
  | IdleModeFrameRate | DisplayFunctionControl | PowerControl1
  | PowerControl2 | ExtC | GammaControlPos1 | GammaControlNeg1
  | InterfaceCtrl
  deriving DecidableEq, Repr

/-- Numeric opcode of each command (`cmd as u8`). -/
def Command.code : Command → Nat
  | .SoftwareReset => 0x01
  | .SleepModeOn => 0x10
  | .SleepModeOff => 0x11
  | .InvertOff => 0x20
  | .InvertOn => 0x21
  | .DisplayOff => 0x28
  | .DisplayOn => 0x29
  | .ColumnAddressSet => 0x2a
  | .PageAddressSet => 0x2b
  | .MemoryWrite => 0x2c
  | .PixelFormatSet => 0x3a
  | .VerticalScrollDefine => 0x33
  | .MemoryAccessControl => 0x36
  | .VerticalScrollAddr => 0x37
  | .IdleModeOff => 0x38
  | .IdleModeOn => 0x39
  | .SetBrightness => 0x51
  | .ContentAdaptiveBrightness => 0x55
  | .RBGInterface => 0xb0
  | .FrameControl => 0xb1
  | .IdleModeFrameRate => 0xb2
  | .DisplayFunctionControl => 0xb6
  | .PowerControl1 => 0xc0
  | .PowerControl2 => 0xc1
  | .ExtC => 0xc8
  | .GammaControlPos1 => 0xe0
  | .GammaControlNeg1 => 0xe1
  | .InterfaceCtrl => 0xf6

/-- A value of the Mode trait: the memory-access-control byte and the
landscape flag an implementation reports. -/
structure ModeV where
  mode : Nat
  is_landscape : Bool
  deriving DecidableEq, Repr

/-- The four orientations of the default Mode implementation. -/
inductive Orientation where
  | Portrait | PortraitFlipped | Landscape | LandscapeFlipped
  deriving DecidableEq, Repr

/-- Orientation::mode: the memory-access-control register byte. -/
def Orientation.mode : Orientation → Nat
  | .Landscape => 0x08
  | .Portrait => 0x20 ||| 0x08
  | .LandscapeFlipped => 0x80 ||| 0x08
  | .PortraitFlipped => 0x40 ||| 0x80 ||| 0x20 ||| 0x08

/-- Orientation::is_landscape. -/
def Orientation.is_landscape : Orientation → Bool
  | .Landscape | .LandscapeFlipped => true
  | .Portrait | .PortraitFlipped => false

/-- Package an Orientation as a Mode trait value. -/
def Orientation.toModeV (o : Orientation) : ModeV :=
  ⟨o.mode, o.is_landscape⟩

/-- ModeState: argument of sleep_mode and display_mode. -/
inductive ModeState where
  | On | Off
  deriving DecidableEq, Repr

/-- The driver state: the owned interface and the tracked dimensions and
landscape flag. -/
structure Ili9342C where
  interface : Iface
  width : Nat
  height : Nat
  landscape : Bool
  deriving DecidableEq, Repr

/-- The transmission primitive: one opcode byte on the command channel,
then the argument bytes on the data channel. -/
def Ili9342C.command (d : Ili9342C) (cmd : Command) (args : List Nat) :
    Except Iface Ili9342C :=
  match d.interface.send_commands cmd.code with
  | .error i => .error i
  | .ok i =>
    match i.send_data args with
    | .error i2 => .error i2
    | .ok i2 => .ok { d with interface := i2 }

/-- write_iter: a MemoryWrite command followed by the pixel words as
big-endian byte pairs. -/
def Ili9342C.write_iter (d : Ili9342C) (data : List Nat) :
    Except Iface Ili9342C :=
  match d.command .MemoryWrite [] with
  | .error i => .error i
  | .ok d2 =>
    match d2.interface.send_data (u16beBytes data) with
    | .error i => .error i
    | .ok i2 => .ok { d2 with interface := i2 }

/-- set_window: program the column and page address ranges, each as four
big-endian bytes. -/
def Ili9342C.set_window (d : Ili9342C) (x0 y0 x1 y1 : Nat) :
    Except Iface Ili9342C :=
  match d.command .ColumnAddressSet
      [x0 / 256 % 256, x0 % 256, x1 / 256 % 256, x1 % 256] with
  | .error i => .error i
  | .ok d2 =>
    d2.command .PageAddressSet
      [y0 / 256 % 256, y0 % 256, y1 / 256 % 256, y1 % 256]

/-- draw_raw_iter: set the window, then stream the pixel data into it. -/
def Ili9342C.draw_raw_iter (d : Ili9342C) (x0 y0 x1 y1 : Nat)
    (data : List Nat) : Except Iface Ili9342C :=
  match d.set_window x0 y0 x1 y1 with
  | .error i => .error i
  | .ok d2 => d2.write_iter data

/-- set_orientation: reprogram the memory-access-control register and swap
the tracked dimensions when the landscape flag changes. -/
def Ili9342C.set_orientation (d : Ili9342C) (mode : ModeV) :
    Except Iface Ili9342C :=
  match d.command .MemoryAccessControl [mode.mode] with
  | .error i => .error i
  | .ok d2 =>
    let d3 := if Bool.xor d2.landscape mode.is_landscape then
        { d2 with width := d2.height, height := d2.width }
      else d2
    .ok { d3 with landscape := mode.is_landscape }

/-- clear_screen: fill the whole screen with one u16 color value. -/
def Ili9342C.clear_screen (d : Ili9342C) (color : Nat) :
    Except Iface Ili9342C :=
  d.draw_raw_iter 0 0 (d.width % 65536) (d.height % 65536)
    (List.replicate (d.width * d.height) color)

/-- sleep_mode: turn sleep mode on or off. -/
def Ili9342C.sleep_mode (d : Ili9342C) (mode : ModeState) :
    Except Iface Ili9342C :=
  match mode with
  | .On => d.command .SleepModeOn []
  | .Off => d.command .SleepModeOff []

/-- display_mode: turn the display on or off. -/
def Ili9342C.display_mode (d : Ili9342C) (mode : ModeState) :
    Except Iface Ili9342C :=
  match mode with
  | .On => d.command .DisplayOn []
  | .Off => d.command .DisplayOff []

/-- OriginDimensions::size: tracked dimensions, truncated to u32. -/
def Ili9342C.size (d : Ili9342C) : Size :=
  ⟨d.width % 4294967296, d.height % 4294967296⟩

/-- Dimensions::bounding_box of an OriginDimensions type: top-left at the
origin. -/
def Ili9342C.bounding_box (d : Ili9342C) : Rectangle :=
  ⟨⟨0, 0⟩, d.size⟩

/-- Ili9342C::new: the full initialization sequence. -/
def Ili9342C.new (interface : Iface) (mode : ModeV) (WIDTH HEIGHT : Nat) :
    Except Iface Ili9342C := do
  let ili : Ili9342C :=
    { interface, width := WIDTH, height := HEIGHT, landscape := false }
  let ili ← ili.command .SoftwareReset []
  let ili := { ili with interface := ili.interface.delay_ms 10 }
  let ili ← ili.command .ExtC [0xff, 0x93, 0x42]
  let ili ← ili.command .PowerControl1 [0x12, 0x12]
  let ili ← ili.command .PowerControl2 [0x03]
  let ili ← ili.command .RBGInterface [0xe0]
  let ili ← ili.command .InterfaceCtrl [0x00, 0x01, 0x01]
  let ili ← ili.command .MemoryAccessControl [mode.mode]
  let ili ← ili.command .PixelFormatSet [0x55]
  let ili ← ili.command .DisplayFunctionControl [0x08, 0x82, 0x27]
  let ili ← ili.command .GammaControlPos1
    [0x00, 0x0c, 0x11, 0x04, 0x11, 0x08, 0x37, 0x89, 0x4c, 0x06, 0x0c,
     0x0a, 0x2e, 0x34, 0x0f]
  let ili ← ili.command .GammaControlNeg1
    [0x00, 0x0b, 0x11, 0x05, 0x13, 0x09, 0x33, 0x67, 0x48, 0x07, 0x0e,
     0x0b, 0x2e, 0x33, 0x0f]
  let ili ← ili.sleep_mode .Off
  let ili := { ili with interface := ili.interface.delay_ms 120 }
  let ili ← ili.display_mode .On
  let ili ← ili.command .InvertOn []
  let ili := { ili with interface := ili.interface.delay_ms 5 }
  return ili

/-- DrawTarget::draw_iter: draw each pixel that lies inside the bounding
box through a one-pixel window; skip the others. -/
def Ili9342C.draw_iter (d : Ili9342C) (pixels : List (Point × Nat)) :
    Except Iface Ili9342C :=
  match pixels with
  | [] => .ok d
  | (point, color) :: rest =>
    if d.bounding_box.contains point then
      match d.draw_raw_iter (u16ofInt point.x) (u16ofInt point.y)
          (u16ofInt point.x) (u16ofInt point.y) [color] with
      | .error i => .error i
      | .ok d2 => d2.draw_iter rest
    else d.draw_iter rest

/-- DrawTarget::fill_contiguous: clip the target rectangle against the
bounding box and stream the (possibly filtered) colors into one window. -/
def Ili9342C.fill_contiguous (d : Ili9342C) (area : Rectangle)
    (colors : List Nat) : Except Iface Ili9342C :=
  let drawable_area := area.intersection d.bounding_box
  match drawable_area.bottom_right with
  | some drawable_bottom_right =>
    let x0 := u16ofInt drawable_area.top_left.x
    let y0 := u16ofInt drawable_area.top_left.y
    let x1 := u16ofInt drawable_bottom_right.x
    let y1 := u16ofInt drawable_bottom_right.y
    if area = drawable_area then
      d.draw_raw_iter x0 y0 x1 y1
        ((area.points.zip colors).map fun pc => pc.2)
    else
      d.draw_raw_iter x0 y0 x1 y1
        (((area.points.zip colors).filter
            fun pc => drawable_area.contains pc.1).map fun pc => pc.2)
  | none => .ok d

/-- DrawTarget::clear: clear_screen with the raw u16 value of the color. -/
def Ili9342C.clear (d : Ili9342C) (color : Nat) : Except Iface Ili9342C :=
  d.clear_screen color

/- Reference traces used in the statements. -/

/-- The positive-polarity gamma table sent during initialization. -/
def gammaPosTable : List Nat :=
  [0x00, 0x0c, 0x11, 0x04, 0x11, 0x08, 0x37, 0x89, 0x4c, 0x06, 0x0c,
   0x0a, 0x2e, 0x34, 0x0f]

/-- The negative-polarity gamma table sent during initialization. -/
def gammaNegTable : List Nat :=
  [0x00, 0x0b, 0x11, 0x05, 0x13, 0x09, 0x33, 0x67, 0x48, 0x07, 0x0e,
   0x0b, 0x2e, 0x33, 0x0f]

/-- The complete 15-step initialization trace for memory-access-control
byte m: every opcode, every argument byte and the three delays, in
order. -/
def initTrace (m : Nat) : List Event :=
  [.command 0x01, .data [],
   .delay 10,
   .command 0xc8, .data [0xff, 0x93, 0x42],
   .command 0xc0, .data [0x12, 0x12],
   .command 0xc1, .data [0x03],
   .command 0xb0, .data [0xe0],
   .command 0xf6, .data [0x00, 0x01, 0x01],
   .command 0x36, .data [m],
   .command 0x3a, .data [0x55],
   .command 0xb6, .data [0x08, 0x82, 0x27],
   .command 0xe0, .data gammaPosTable,
   .command 0xe1, .data gammaNegTable,
   .command 0x11, .data [],
   .delay 120,
   .command 0x29, .data [],
   .command 0x21, .data [],
   .delay 5]

/-- Position in the initialization trace of fallible transport call k:
the two delays before it shift later calls by one each. -/
def initCallPos (k : Nat) : Nat :=
  if k ≤ 1 then k else if k ≤ 23 then k + 1 else k + 2

theorem pureOk {A : Type} (a : A) : (pure a : Except Iface A) = .ok a := rfl

theorem bindOk {A B : Type} (a : A) (f : A → Except Iface B) :
    ((.ok a : Except Iface A) >>= f) = f a := rfl

theorem bindErr {A B : Type} (e : Iface) (f : A → Except Iface B) :
    ((.error e : Except Iface A) >>= f) = .error e := rfl

theorem command_ok (s : List Event) (n W H : Nat) (l : Bool) (c : Command)
    (args : List Nat) :
    Ili9342C.command ⟨⟨s, n, none⟩, W, H, l⟩ c args =
      .ok ⟨⟨s ++ [.command c.code, .data args], n + 2, none⟩, W, H, l⟩ := by
  simp [Ili9342C.command, Iface.send_commands, Iface.send_data, Iface.send]

theorem command_fail_now (s : List Event) (n W H : Nat) (l : Bool)
    (c : Command) (args : List Nat) :
    Ili9342C.command ⟨⟨s, n, some n⟩, W, H, l⟩ c args =
      .error ⟨s, n, some n⟩ := by
  simp [Ili9342C.command, Iface.send_commands, Iface.send_data, Iface.send]

theorem command_fail_next (s : List Event) (n W H : Nat) (l : Bool)
    (c : Command) (args : List Nat) :
    Ili9342C.command ⟨⟨s, n, some (n + 1)⟩, W, H, l⟩ c args =
      .error ⟨s ++ [.command c.code], n + 1, some (n + 1)⟩ := by
  simp [Ili9342C.command, Iface.send_commands, Iface.send_data, Iface.send]

theorem command_sched_ok (s : List Event) (k n W H : Nat) (l : Bool)
    (c : Command) (args : List Nat) (h1 : k ≠ n) (h2 : k ≠ n + 1) :
    Ili9342C.command ⟨⟨s, n, some k⟩, W, H, l⟩ c args =
      .ok ⟨⟨s ++ [.command c.code, .data args], n + 2, some k⟩, W, H, l⟩ := by
  simp [Ili9342C.command, Iface.send_commands, Iface.send_data, Iface.send,
    h1, h2]

/-- One step of a straight-line initialization script: a command with its
arguments, or a delay. -/
inductive Action where
  | act_cmd (c : Command) (args : List Nat) : Action
  | act_delay (ms : Nat) : Action
  deriving DecidableEq, Repr

/-- Run a script of actions the way Ili9342C::new runs its steps,
aborting on the first transport error. -/
def runActs (d : Ili9342C) : List Action → Except Iface Ili9342C
  | [] => .ok d
  | .act_cmd c args :: rest =>
    d.command c args >>= fun d2 => runActs d2 rest
  | .act_delay ms :: rest =>
    runActs { d with interface := d.interface.delay_ms ms } rest

/-- The events a script produces when every transport call succeeds. -/
def actsEvents : List Action → List Event
  | [] => []
  | .act_cmd c args :: rest => .command c.code :: .data args :: actsEvents rest
  | .act_delay ms :: rest => .delay ms :: actsEvents rest

/-- The number of fallible transport calls a script makes. -/
def actsCalls : List Action → Nat
  | [] => 0
  | .act_cmd _ _ :: rest => 2 + actsCalls rest
  | .act_delay _ :: rest => actsCalls rest

/-- Position in the event list right before transport call k of a script. -/
def posInActs (k : Nat) : List Action → Nat
  | [] => 0
  | .act_cmd _ _ :: rest =>
    if k = 0 then 0 else if k = 1 then 1 else posInActs (k - 2) rest + 2
  | .act_delay _ :: rest => posInActs k rest + 1

/-- The initialization script of Ili9342C::new, for memory-access-control
byte m. -/
def initActs (m : Nat) : List Action :=
  [.act_cmd .SoftwareReset [], .act_delay 10,
   .act_cmd .ExtC [0xff, 0x93, 0x42],
   .act_cmd .PowerControl1 [0x12, 0x12],
   .act_cmd .PowerControl2 [0x03],
   .act_cmd .RBGInterface [0xe0],
   .act_cmd .InterfaceCtrl [0x00, 0x01, 0x01],
   .act_cmd .MemoryAccessControl [m],
   .act_cmd .PixelFormatSet [0x55],
   .act_cmd .DisplayFunctionControl [0x08, 0x82, 0x27],
   .act_cmd .GammaControlPos1 gammaPosTable,
   .act_cmd .GammaControlNeg1 gammaNegTable,
   .act_cmd .SleepModeOff [], .act_delay 120,
   .act_cmd .DisplayOn [], .act_cmd .InvertOn [], .act_delay 5]

/-- Ili9342C::new runs exactly the initialization script. -/
theorem new_eq_runActs (i : Iface) (mode : ModeV) (W H : Nat) :
    Ili9342C.new i mode W H =
      runActs ⟨i, W, H, false⟩ (initActs mode.mode) := rfl

/-- A script run with no scheduled failure succeeds and appends exactly
its events. -/
theorem runActs_none (acts : List Action) :
    ∀ (s : List Event) (n W H : Nat) (l : Bool),
    runActs ⟨⟨s, n, none⟩, W, H, l⟩ acts =
      .ok ⟨⟨s ++ actsEvents acts, n + actsCalls acts, none⟩, W, H, l⟩ := by
  induction acts with
  | nil => intro s n W H l; simp [runActs, actsEvents, actsCalls]
  | cons a rest ih =>
    intro s n W H l
    cases a with
    | act_cmd c args =>
      simp [runActs, command_ok, bindOk, actsEvents, actsCalls, ih,
        List.append_assoc, Nat.add_assoc]
    | act_delay ms =>
      simp [runActs, Iface.delay_ms, actsEvents, actsCalls, ih,
        List.append_assoc]

/-- A script run whose schedule fails at call k (k below the number of
calls the script makes) errors out with exactly the events before call k
recorded and k calls made. -/
theorem runActs_fail (acts : List Action) :
    ∀ (s : List Event) (n k W H : Nat) (l : Bool), k < actsCalls acts →
    runActs ⟨⟨s, n, some (n + k)⟩, W, H, l⟩ acts =
      .error ⟨s ++ (actsEvents acts).take (posInActs k acts), n + k,
        some (n + k)⟩ := by
  induction acts with
  | nil => intro s n k W H l hk; simp [actsCalls] at hk
  | cons a rest ih =>
    intro s n k W H l hk
    cases a with
    | act_delay ms =>
      have h := ih (s ++ [.delay ms]) n k W H l (by simpa [actsCalls] using hk)
      simp [runActs, Iface.delay_ms, actsEvents, posInActs, h,
        List.append_assoc, List.take_succ_cons]
    | act_cmd c args =>
      by_cases h0 : k = 0
      · subst h0
        simp [runActs, command_fail_now, bindErr, posInActs]
      · by_cases h1 : k = 1
        · subst h1
          simp [runActs, command_fail_next, bindErr, posInActs, actsEvents]
        · have hcmd := command_sched_ok s (n + k) n W H l c args
            (by omega) (by omega)
          have he : n + 2 + (k - 2) = n + k := by omega
          have hrest : k - 2 < actsCalls rest := by
            simp [actsCalls] at hk; omega
          have h := ih (s ++ [.command c.code, .data args]) (n + 2) (k - 2)
            W H l hrest
          rw [he] at h
          simp [runActs, hcmd, bindOk, h, actsEvents, posInActs, h0, h1,
            List.append_assoc, List.take_succ_cons]

/-- Helper: a construction with no scheduled transport failure succeeds
with exactly the initialization trace recorded. -/
theorem new_none (mode : ModeV) (W H : Nat) :
    Ili9342C.new ⟨[], 0, none⟩ mode W H =
      .ok ⟨⟨initTrace mode.mode, 28, none⟩, W, H, false⟩ := by
  rw [new_eq_runActs, runActs_none]
  rfl

/-- C1: a successful construction sends, in exact order with no step
skipped or reordered, the 15-step initialization sequence of the spec —
software reset; delay 10 ms; vendor-extension unlock (3 bytes); power
control 1 (2 bytes) and 2 (1 byte); RGB-interface control (1 byte);
interface control (3 bytes); memory-access-control set to the chosen
orientation's mode byte; pixel-format 0x55; display-function control
(3 bytes); positive then negative gamma tables (15 bytes each);
sleep-mode off; delay 120 ms; display on; inversion on; delay 5 ms —
with every opcode and argument byte matching the fixed vendor values
byte-for-byte and the three delays at exactly those positions. -/
theorem new_sends_init_sequence (mode : ModeV) (W H : Nat) :
    Ili9342C.new ⟨[], 0, none⟩ mode W H =
      .ok ⟨⟨initTrace mode.mode, 28, none⟩, W, H, false⟩ :=
  new_none mode W H

/-- C9: the tracked state returned by construction is independent of the
chosen orientation mode: the landscape flag is always false and the
dimensions always equal the DisplaySize constants, whatever mode is
chosen; only the memory-access-control byte of the sent trace (event 14)
depends on the mode: overwriting that one event turns the trace into the
trace of any other mode byte. -/
theorem new_state_independent_of_mode (mode : ModeV) (W H : Nat) :
    ∃ d : Ili9342C,
      Ili9342C.new ⟨[], 0, none⟩ mode W H = .ok d ∧
      d.landscape = false ∧ d.width = W ∧ d.height = H ∧
      d.interface.sent = initTrace mode.mode ∧
      ∀ m2 : Nat, (initTrace mode.mode).set 14 (.data [m2]) = initTrace m2 :=
  ⟨_, new_none mode W H, rfl, rfl, rfl, rfl, fun _ => rfl⟩

/-- C6: if the transport errors at initialization call k, construction
fails (no driver instance is returned), exactly k transport calls were
made, and the recorded events are precisely the prefix of the
initialization trace that comes before call k — nothing of any later
step was sent. -/
theorem new_error_aborts (mode : ModeV) (W H k : Nat) (hk : k < 28) :
    Ili9342C.new ⟨[], 0, some k⟩ mode W H =
      .error ⟨(initTrace mode.mode).take (initCallPos k), k, some k⟩ := by
  have h := runActs_fail (initActs mode.mode) [] 0 k W H false
    (by simp only [initActs, actsCalls]; omega)
  simp only [Nat.zero_add] at h
  have hpos : posInActs k (initActs mode.mode) = initCallPos k := by
    interval_cases k <;> rfl
  rw [new_eq_runActs, h, hpos]
  rfl

/-- Witness for C6 at k = 7 (the send_data call of power control 1):
construction fails with only the first seven calls recorded. -/
theorem new_error_aborts_witness :
    7 < 28 ∧
    Ili9342C.new ⟨[], 0, some 7⟩ ⟨0x08, true⟩ 320 240 =
      .error ⟨(initTrace 0x08).take (initCallPos 7), 7, some 7⟩ :=
  ⟨by decide, new_error_aborts ⟨0x08, true⟩ 320 240 7 (by decide)⟩

/-- The six events draw_raw_iter appends when every transport call
succeeds: the window program (column range, page range) followed by the
memory write with the pixel words as big-endian byte pairs. -/
def windowStreamEvents (x0 y0 x1 y1 : Nat) (ws : List Nat) : List Event :=
  [.command 0x2a, .data [x0 / 256 % 256, x0 % 256, x1 / 256 % 256, x1 % 256],
   .command 0x2b, .data [y0 / 256 % 256, y0 % 256, y1 / 256 % 256, y1 % 256],
   .command 0x2c, .data [], .data (u16beBytes ws)]

/-- With no scheduled failure, draw_raw_iter succeeds and appends exactly
its seven events. -/
theorem draw_raw_iter_none (s : List Event) (n W H : Nat) (l : Bool)
    (x0 y0 x1 y1 : Nat) (ws : List Nat) :
    Ili9342C.draw_raw_iter ⟨⟨s, n, none⟩, W, H, l⟩ x0 y0 x1 y1 ws =
      .ok ⟨⟨s ++ windowStreamEvents x0 y0 x1 y1 ws, n + 7, none⟩, W, H, l⟩ := by
  simp [Ili9342C.draw_raw_iter, Ili9342C.set_window, Ili9342C.write_iter,
    Ili9342C.command, Iface.send_commands, Iface.send_data, Iface.send,
    windowStreamEvents, Command.code, List.append_assoc]

/-- Big-endian serialisation of a constant color repeated m times is the
two-byte pair repeated m times. -/
theorem u16beBytes_replicate (m w : Nat) :
    u16beBytes (List.replicate m w) =
      (List.replicate m [w / 256 % 256, w % 256]).flatten := by
  induction m with
  | zero => rfl
  | succ m ih => simp [List.replicate_succ, u16beBytes, List.flatMap_cons] at ih ⊢; simp [ih]

/-- C2: clear_screen(0xF800) programs a window with bounds
(0, 0, width, height) and then streams exactly width*height repetitions
of the two-byte big-endian sequence [0xF8, 0x00]. -/
theorem clear_screen_red (d : Ili9342C) (h1 : d.interface.failAt = none)
    (h2 : d.width < 65536) (h3 : d.height < 65536) :
    ∃ i : Iface,
      d.clear_screen 0xF800 = .ok { d with interface := i } ∧
      i.sent = d.interface.sent ++
        [.command 0x2a, .data [0, 0, d.width / 256, d.width % 256],
         .command 0x2b, .data [0, 0, d.height / 256, d.height % 256],
         .command 0x2c, .data [],
         .data ((List.replicate (d.width * d.height) [0xF8, 0x00]).flatten)] := by
  obtain ⟨⟨s, n, f⟩, W, Hh, l⟩ := d
  simp only at h1 h2 h3
  subst h1
  have hw : W % 65536 = W := Nat.mod_eq_of_lt h2
  have hh : Hh % 65536 = Hh := Nat.mod_eq_of_lt h3
  have hwd : W / 256 % 256 = W / 256 :=
    Nat.mod_eq_of_lt (Nat.div_lt_of_lt_mul (by omega))
  have hhd : Hh / 256 % 256 = Hh / 256 :=
    Nat.mod_eq_of_lt (Nat.div_lt_of_lt_mul (by omega))
  refine ⟨⟨s ++
      [.command 0x2a, .data [0, 0, W / 256, W % 256],
       .command 0x2b, .data [0, 0, Hh / 256, Hh % 256],
       .command 0x2c, .data [],
       .data ((List.replicate (W * Hh) [0xF8, 0x00]).flatten)],
    n + 7, none⟩, ?_, rfl⟩
  simp [Ili9342C.clear_screen, draw_raw_iter_none, windowStreamEvents,
    hw, hh, hwd, hhd, u16beBytes_replicate]

/-- Witness for C2 on a 2-by-2 driver. -/
theorem clear_screen_red_witness :
    (⟨⟨[], 0, none⟩, 2, 2, false⟩ : Ili9342C).interface.failAt = none ∧
    (2 : Nat) < 65536 ∧
    ∃ i : Iface,
      Ili9342C.clear_screen ⟨⟨[], 0, none⟩, 2, 2, false⟩ 0xF800 =
        .ok { (⟨⟨[], 0, none⟩, 2, 2, false⟩ : Ili9342C) with interface := i } ∧
      i.sent = (⟨⟨[], 0, none⟩, 2, 2, false⟩ : Ili9342C).interface.sent ++
        [.command 0x2a, .data [0, 0, 2 / 256, 2 % 256],
         .command 0x2b, .data [0, 0, 2 / 256, 2 % 256],
         .command 0x2c, .data [],
         .data ((List.replicate (2 * 2) [0xF8, 0x00]).flatten)] :=
  ⟨rfl, by decide,
    clear_screen_red ⟨⟨[], 0, none⟩, 2, 2, false⟩ rfl (by decide) (by decide)⟩

/-- C7: a successful set_orientation swaps the tracked width and height
exactly when the new orientation's landscape flag differs from the
current one (so applying the same orientation twice leaves the
dimensions unchanged), and the product width*height is invariant. -/
theorem set_orientation_dims (d : Ili9342C) (mode : ModeV)
    (h1 : d.interface.failAt = none) :
    ∃ d2 : Ili9342C,
      d.set_orientation mode = .ok d2 ∧
      d2.landscape = mode.is_landscape ∧
      (if d.landscape = mode.is_landscape
        then d2.width = d.width ∧ d2.height = d.height
        else d2.width = d.height ∧ d2.height = d.width) ∧
      d2.width * d2.height = d.width * d.height := by
  obtain ⟨⟨s, n, f⟩, W, Hh, l⟩ := d
  obtain ⟨mb, ml⟩ := mode
  simp only at h1
  subst h1
  cases l <;> cases ml
  · exact ⟨⟨⟨s ++ [.command 0x36, .data [mb]], n + 2, none⟩, W, Hh, false⟩,
      by simp [Ili9342C.set_orientation, command_ok, Command.code],
      rfl, by simp, rfl⟩
  · exact ⟨⟨⟨s ++ [.command 0x36, .data [mb]], n + 2, none⟩, Hh, W, true⟩,
      by simp [Ili9342C.set_orientation, command_ok, Command.code],
      rfl, by simp, by simp [Nat.mul_comm]⟩
  · exact ⟨⟨⟨s ++ [.command 0x36, .data [mb]], n + 2, none⟩, Hh, W, false⟩,
      by simp [Ili9342C.set_orientation, command_ok, Command.code],
      rfl, by simp, by simp [Nat.mul_comm]⟩
  · exact ⟨⟨⟨s ++ [.command 0x36, .data [mb]], n + 2, none⟩, W, Hh, true⟩,
      by simp [Ili9342C.set_orientation, command_ok, Command.code],
      rfl, by simp, rfl⟩

/-- Witness for C7: switching a portrait 320-by-240 driver to landscape
swaps the tracked dimensions. -/
theorem set_orientation_dims_witness :
    (⟨⟨[], 0, none⟩, 320, 240, false⟩ : Ili9342C).interface.failAt = none ∧
    ∃ d2 : Ili9342C,
      Ili9342C.set_orientation ⟨⟨[], 0, none⟩, 320, 240, false⟩
          Orientation.Landscape.toModeV = .ok d2 ∧
      d2.landscape = Orientation.Landscape.toModeV.is_landscape ∧
      (if (⟨⟨[], 0, none⟩, 320, 240, false⟩ : Ili9342C).landscape =
          Orientation.Landscape.toModeV.is_landscape
        then d2.width = 320 ∧ d2.height = 240
        else d2.width = 240 ∧ d2.height = 320) ∧
      d2.width * d2.height = 320 * 240 :=
  ⟨rfl, set_orientation_dims ⟨⟨[], 0, none⟩, 320, 240, false⟩
    Orientation.Landscape.toModeV rfl⟩

/- Geometry lemmas. -/

/-- Membership characterisation of Rectangle::contains. -/
theorem contains_iff (R : Rectangle) (p : Point) :
    R.contains p = true ↔
      (R.top_left.x ≤ p.x ∧ p.x ≤ R.top_left.x + R.size.width - 1 ∧
       R.top_left.y ≤ p.y ∧ p.y ≤ R.top_left.y + R.size.height - 1 ∧
       0 < R.size.width ∧ 0 < R.size.height) := by
  obtain ⟨⟨ax, ay⟩, ⟨aw, ah⟩⟩ := R
  simp only [Rectangle.contains, Rectangle.bottom_right]
  split_ifs <;> simp_all

/-- Rectangle::contains as a decided proposition. -/
theorem contains_eq (R : Rectangle) (p : Point) :
    R.contains p =
      decide (R.top_left.x ≤ p.x ∧ p.x ≤ R.top_left.x + R.size.width - 1 ∧
        R.top_left.y ≤ p.y ∧ p.y ≤ R.top_left.y + R.size.height - 1 ∧
        0 < R.size.width ∧ 0 < R.size.height) := by
  rw [Bool.eq_iff_iff, contains_iff]
  simp

/-- A rectangle with positive size lying fully inside the origin-anchored
w-by-h box intersects it in itself. -/
theorem intersection_inside (x y rw rh w h : Nat) (hrw : 0 < rw)
    (hrh : 0 < rh) (hx : x + rw ≤ w) (hy : y + rh ≤ h) :
    Rectangle.intersection ⟨⟨(x : Int), (y : Int)⟩, ⟨rw, rh⟩⟩
        ⟨⟨0, 0⟩, ⟨w, h⟩⟩ =
      ⟨⟨(x : Int), (y : Int)⟩, ⟨rw, rh⟩⟩ := by
  have hw : 0 < w := by omega
  have hh : 0 < h := by omega
  simp only [Rectangle.intersection, Rectangle.bottom_right]
  rw [if_pos ⟨hw, hh⟩, if_pos ⟨hrw, hrh⟩]
  dsimp only
  rw [if_pos]
  · simp only [Rectangle.with_corners, component_max, component_min]
    simp only [Rectangle.mk.injEq, Point.mk.injEq, Size.mk.injEq]
    refine ⟨⟨by omega, by omega⟩, by omega, by omega⟩
  · simp only [overlapsRange, component_max, component_min]
    constructor <;> · simp only [decide_eq_true_eq]; omega

/-- Sum of a constant function over a list. -/
theorem sum_map_const {A : Type} (c : Nat) :
    ∀ l : List A, (l.map fun _ => c).sum = l.length * c := by
  intro l
  induction l with
  | nil => simp
  | cons a l ih => simp [ih, Nat.succ_mul, Nat.add_comm]

/-- The number of points of a rectangle is its area. -/
theorem points_length (R : Rectangle) :
    R.points.length = R.size.width * R.size.height := by
  obtain ⟨⟨ax, ay⟩, ⟨aw, ah⟩⟩ := R
  rw [Rectangle.points, List.length_flatMap]
  have h : (List.map
      (List.length ∘ fun (dy : Nat) => (List.map
        (fun (dx : Nat) => (⟨ax + (dx : Int), ay + (dy : Int)⟩ : Point))
        (List.range aw)))
      (List.range ah)) = List.replicate ah aw := by
    simp [Function.comp_def, List.map_const']
  rw [h, List.sum_replicate, smul_eq_mul, Nat.mul_comm]

/-- Every enumerated point of a rectangle is contained in it. -/
theorem points_mem_contains (R : Rectangle) (p : Point) (hp : p ∈ R.points) :
    R.contains p = true := by
  obtain ⟨⟨ax, ay⟩, ⟨aw, ah⟩⟩ := R
  simp only [Rectangle.points, List.mem_flatMap, List.mem_map,
    List.mem_range] at hp
  obtain ⟨dy, hdy, dx, hdx, rfl⟩ := hp
  rw [contains_iff]
  dsimp only
  omega

/-- Mapping the second projection over a zip against an equally long or
longer first list returns the second list. -/
theorem zip_map_snd {A B : Type} :
    ∀ (as : List A) (bs : List B), bs.length ≤ as.length →
      ((as.zip bs).map fun pc => pc.2) = bs := by
  intro as
  induction as with
  | nil => intro bs h; simp at h; simp [h]
  | cons a as ih =>
    intro bs h
    cases bs with
    | nil => simp
    | cons b bs => simp at h ⊢; exact ih bs h

/-- Structure of a rectangle with a bottom-right corner: positive size and
the corner coordinates. -/
theorem bottom_right_some (R : Rectangle) (q : Point)
    (h : R.bottom_right = some q) :
    0 < R.size.width ∧ 0 < R.size.height ∧
    q.x = R.top_left.x + R.size.width - 1 ∧
    q.y = R.top_left.y + R.size.height - 1 := by
  unfold Rectangle.bottom_right at h
  split_ifs at h with hc
  obtain ⟨h1, h2⟩ := hc
  cases h
  exact ⟨h1, h2, rfl, rfl⟩

/-- C5: per-pixel draw of a single pixel: if the point is in bounds the
driver programs a one-pixel window at it and streams the single color;
if it is out of bounds the driver makes no hardware call at all and
returns success. -/
theorem draw_iter_pixel (d : Ili9342C) (p : Point) (c : Nat)
    (h1 : d.interface.failAt = none)
    (h2 : d.width < 65536) (h3 : d.height < 65536) :
    ((0 ≤ p.x ∧ p.x < (d.width : Int) ∧ 0 ≤ p.y ∧ p.y < (d.height : Int)) →
      ∃ i : Iface,
        d.draw_iter [(p, c)] = .ok { d with interface := i } ∧
        i.sent = d.interface.sent ++
          windowStreamEvents p.x.toNat p.y.toNat p.x.toNat p.y.toNat [c]) ∧
    (¬(0 ≤ p.x ∧ p.x < (d.width : Int) ∧ 0 ≤ p.y ∧ p.y < (d.height : Int)) →
      d.draw_iter [(p, c)] = .ok d) := by
  obtain ⟨⟨s, n, f⟩, W, Hh, l⟩ := d
  obtain ⟨px, py⟩ := p
  simp only at h1 h2 h3 ⊢
  subst h1
  constructor
  · rintro ⟨hx0, hx1, hy0, hy1⟩
    have hc : (Ili9342C.bounding_box ⟨⟨s, n, none⟩, W, Hh, l⟩).contains
        ⟨px, py⟩ = true := by
      rw [contains_iff]
      simp only [Ili9342C.bounding_box, Ili9342C.size]
      omega
    have hux : u16ofInt px = px.toNat := by unfold u16ofInt; omega
    have huy : u16ofInt py = py.toNat := by unfold u16ofInt; omega
    refine ⟨⟨s ++ windowStreamEvents px.toNat py.toNat px.toNat py.toNat [c],
      n + 7, none⟩, ?_, rfl⟩
    simp [Ili9342C.draw_iter, hc, hux, huy, draw_raw_iter_none]
  · intro hout
    have hc : (Ili9342C.bounding_box ⟨⟨s, n, none⟩, W, Hh, l⟩).contains
        ⟨px, py⟩ = false := by
      rw [Bool.eq_false_iff, Ne, contains_iff]
      simp only [Ili9342C.bounding_box, Ili9342C.size]
      intro hcon
      exact hout (by omega)
    simp [Ili9342C.draw_iter, hc]

/-- Witness for C5: an in-bounds point on a 4-by-4 driver draws one
pixel; combined with the bundled out-of-bounds implication. -/
theorem draw_iter_pixel_witness :
    (⟨⟨[], 0, none⟩, 4, 4, false⟩ : Ili9342C).interface.failAt = none ∧
    (((0 : Int) ≤ (1 : Int) ∧ (1 : Int) < ((4 : Nat) : Int) ∧
      (0 : Int) ≤ (2 : Int) ∧ (2 : Int) < ((4 : Nat) : Int)) →
      ∃ i : Iface,
        Ili9342C.draw_iter ⟨⟨[], 0, none⟩, 4, 4, false⟩
            [(⟨1, 2⟩, 0xABCD)] =
          .ok { (⟨⟨[], 0, none⟩, 4, 4, false⟩ : Ili9342C) with interface := i } ∧
        i.sent = (⟨⟨[], 0, none⟩, 4, 4, false⟩ : Ili9342C).interface.sent ++
          windowStreamEvents (Int.toNat 1) (Int.toNat 2) (Int.toNat 1)
            (Int.toNat 2) [0xABCD]) ∧
    (¬((0 : Int) ≤ (1 : Int) ∧ (1 : Int) < ((4 : Nat) : Int) ∧
      (0 : Int) ≤ (2 : Int) ∧ (2 : Int) < ((4 : Nat) : Int)) →
      Ili9342C.draw_iter ⟨⟨[], 0, none⟩, 4, 4, false⟩ [(⟨1, 2⟩, 0xABCD)] =
        .ok ⟨⟨[], 0, none⟩, 4, 4, false⟩) :=
  ⟨rfl, draw_iter_pixel ⟨⟨[], 0, none⟩, 4, 4, false⟩ ⟨1, 2⟩ 0xABCD rfl
    (by decide) (by decide)⟩

/-- C8: an area fill whose rectangle shares no point with the bounding
box performs no hardware call at all and returns success with the driver
unchanged. -/
theorem fill_contiguous_empty (d : Ili9342C) (area : Rectangle)
    (colors : List Nat)
    (hp : ∀ p : Point,
      ¬(area.contains p = true ∧ d.bounding_box.contains p = true)) :
    d.fill_contiguous area colors = .ok d := by
  have hnone : (area.intersection d.bounding_box).bottom_right = none := by
    rcases hbbr : (d.bounding_box).bottom_right with _ | bbr
    · simp only [Rectangle.intersection, hbbr]
      rfl
    · rcases habr : area.bottom_right with _ | abr
      · simp only [Rectangle.intersection, hbbr, habr]
        rfl
      · obtain ⟨haw, hah, habx, haby⟩ := bottom_right_some _ _ habr
        obtain ⟨hbw, hbh, hbbx, hbby⟩ := bottom_right_some _ _ hbbr
        simp only [Rectangle.intersection, hbbr, habr]
        split_ifs with hov
        · exfalso
          obtain ⟨hovx, hovy⟩ := hov
          simp only [overlapsRange, decide_eq_true_eq] at hovx hovy
          refine hp (component_max area.top_left d.bounding_box.top_left) ?_
          rw [contains_iff, contains_iff]
          simp only [component_max]
          omega
        · rfl
  simp [Ili9342C.fill_contiguous, hnone]

/-- Witness for C8: a rectangle entirely left of the bounding box is
drawn with zero hardware calls. -/
theorem fill_contiguous_empty_witness :
    (∀ p : Point,
      ¬((⟨⟨-5, 0⟩, ⟨2, 2⟩⟩ : Rectangle).contains p = true ∧
        (⟨⟨[], 0, none⟩, 4, 4, false⟩ : Ili9342C).bounding_box.contains p
          = true)) ∧
    Ili9342C.fill_contiguous ⟨⟨[], 0, none⟩, 4, 4, false⟩
        ⟨⟨-5, 0⟩, ⟨2, 2⟩⟩ [0xAAAA, 0xBBBB, 0xCCCC, 0xDDDD] =
      .ok ⟨⟨[], 0, none⟩, 4, 4, false⟩ := by
  have hp : ∀ p : Point,
      ¬((⟨⟨-5, 0⟩, ⟨2, 2⟩⟩ : Rectangle).contains p = true ∧
        (⟨⟨[], 0, none⟩, 4, 4, false⟩ : Ili9342C).bounding_box.contains p
          = true) := by
    intro p
    rw [contains_iff, contains_iff]
    simp only [Ili9342C.bounding_box, Ili9342C.size]
    omega
  exact ⟨hp, fill_contiguous_empty ⟨⟨[], 0, none⟩, 4, 4, false⟩
    ⟨⟨-5, 0⟩, ⟨2, 2⟩⟩ [0xAAAA, 0xBBBB, 0xCCCC, 0xDDDD] hp⟩

/-- C3: an area fill over a nonempty rectangle lying fully inside the
bounding box, given exactly width*height colors, programs one window
whose corners are the rectangle's and streams exactly those colors in
the given order, unfiltered. -/
theorem fill_contiguous_inside (d : Ili9342C) (x y rw rh : Nat)
    (colors : List Nat)
    (h1 : d.interface.failAt = none)
    (h2 : d.width < 65536) (h3 : d.height < 65536)
    (hrw : 0 < rw) (hrh : 0 < rh)
    (hx : x + rw ≤ d.width) (hy : y + rh ≤ d.height)
    (hlen : colors.length = rw * rh) :
    ∃ i : Iface,
      d.fill_contiguous ⟨⟨(x : Int), (y : Int)⟩, ⟨rw, rh⟩⟩ colors =
        .ok { d with interface := i } ∧
      i.sent = d.interface.sent ++
        windowStreamEvents x y (x + rw - 1) (y + rh - 1) colors := by
  obtain ⟨⟨s, n, f⟩, W, Hh, l⟩ := d
  simp only at h1 h2 h3 hx hy ⊢
  subst h1
  have hWm : W % 4294967296 = W := Nat.mod_eq_of_lt (by omega)
  have hHm : Hh % 4294967296 = Hh := Nat.mod_eq_of_lt (by omega)
  have hbb : Ili9342C.bounding_box ⟨⟨s, n, none⟩, W, Hh, l⟩ =
      ⟨⟨0, 0⟩, ⟨W, Hh⟩⟩ := by
    simp [Ili9342C.bounding_box, Ili9342C.size, hWm, hHm]
  have hinter : Rectangle.intersection ⟨⟨(x : Int), (y : Int)⟩, ⟨rw, rh⟩⟩
      (Ili9342C.bounding_box ⟨⟨s, n, none⟩, W, Hh, l⟩) =
      ⟨⟨(x : Int), (y : Int)⟩, ⟨rw, rh⟩⟩ := by
    rw [hbb]
    exact intersection_inside x y rw rh W Hh hrw hrh hx hy
  have hbr : (⟨⟨(x : Int), (y : Int)⟩, ⟨rw, rh⟩⟩ : Rectangle).bottom_right =
      some ⟨(x : Int) + rw - 1, (y : Int) + rh - 1⟩ := by
    simp [Rectangle.bottom_right, hrw, hrh]
  have hzip : ((Rectangle.points ⟨⟨(x : Int), (y : Int)⟩, ⟨rw, rh⟩⟩).zip
      colors).map (fun pc => pc.2) = colors := by
    refine zip_map_snd _ colors ?_
    rw [points_length, hlen]
  have hux : u16ofInt ((x : Nat) : Int) = x := by unfold u16ofInt; omega
  have huy : u16ofInt ((y : Nat) : Int) = y := by unfold u16ofInt; omega
  have hux2 : u16ofInt ((x : Int) + rw - 1) = x + rw - 1 := by
    unfold u16ofInt; omega
  have huy2 : u16ofInt ((y : Int) + rh - 1) = y + rh - 1 := by
    unfold u16ofInt; omega
  refine ⟨⟨s ++ windowStreamEvents x y (x + rw - 1) (y + rh - 1) colors,
    n + 7, none⟩, ?_, rfl⟩
  simp only [Ili9342C.fill_contiguous, hinter, hbr]
  rw [if_pos trivial]
  simp only [hux, huy, hux2, huy2, hzip]
  exact draw_raw_iter_none s n W Hh l x y (x + rw - 1) (y + rh - 1) colors

/-- Witness for C3: a 2-by-2 rectangle at (1,1) inside a 4-by-4 screen
streams its four colors unfiltered. -/
theorem fill_contiguous_inside_witness :
    (⟨⟨[], 0, none⟩, 4, 4, false⟩ : Ili9342C).interface.failAt = none ∧
    ([0xA, 0xB, 0xC, 0xD] : List Nat).length = 2 * 2 ∧
    ∃ i : Iface,
      Ili9342C.fill_contiguous ⟨⟨[], 0, none⟩, 4, 4, false⟩
          ⟨⟨((1 : Nat) : Int), ((1 : Nat) : Int)⟩, ⟨2, 2⟩⟩
          [0xA, 0xB, 0xC, 0xD] =
        .ok { (⟨⟨[], 0, none⟩, 4, 4, false⟩ : Ili9342C) with interface := i } ∧
      i.sent = (⟨⟨[], 0, none⟩, 4, 4, false⟩ : Ili9342C).interface.sent ++
        windowStreamEvents 1 1 (1 + 2 - 1) (1 + 2 - 1) [0xA, 0xB, 0xC, 0xD] :=
  ⟨rfl, by decide,
    fill_contiguous_inside ⟨⟨[], 0, none⟩, 4, 4, false⟩ 1 1 2 2
      [0xA, 0xB, 0xC, 0xD] rfl (by decide) (by decide) (by decide) (by decide)
      (by decide) (by decide) (by decide)⟩

/- Counting lemmas for the clipped fill. -/

/-- countP distributes over flatMap as a sum. -/
theorem countP_flatMap {A B : Type} (P : B → Bool) :
    ∀ (l : List A) (f : A → List B),
      (l.flatMap f).countP P = (l.map fun a => (f a).countP P).sum := by
  intro l f
  induction l with
  | nil => simp
  | cons a l ih => simp [List.flatMap_cons, List.countP_append, ih]

/-- Number of naturals below n that an integer interval contains. -/
theorem countP_range_int (lo hi : Int) :
    ∀ n : Nat, (List.range n).countP
        (fun (k : Nat) => decide (lo ≤ (k : Int) ∧ (k : Int) ≤ hi)) =
      (min (hi + 1) (n : Int) - max lo 0).toNat := by
  intro n
  induction n with
  | zero => simp; omega
  | succ n ih =>
    rw [List.range_succ, List.countP_append, ih]
    simp only [List.countP_cons, List.countP_nil]
    by_cases h : lo ≤ (n : Int) ∧ (n : Int) ≤ hi
    · rw [if_pos (decide_eq_true h)]
      omega
    · rw [if_neg (by simpa using h)]
      omega

/-- Summing a constant under a boolean guard counts the guard. -/
theorem sum_map_ite {A : Type} (P : A → Bool) (c : Nat) :
    ∀ l : List A, (l.map fun a => if P a then c else 0).sum = c * l.countP P := by
  intro l
  induction l with
  | nil => simp
  | cons a l ih =>
    simp only [List.map_cons, List.sum_cons, ih, List.countP_cons]
    cases hPa : P a <;>
      simp [hPa, Nat.mul_add, Nat.mul_one, Nat.add_comm]

/-- Counting pairs of a zip by a predicate on the first component counts
the predicate on the first list truncated to the second list's length. -/
theorem countP_fst_zip {A B : Type} (P : A → Bool) :
    ∀ (as : List A) (bs : List B),
      ((as.zip bs).countP fun pc => P pc.1) = (as.take bs.length).countP P := by
  intro as
  induction as with
  | nil => intro bs; simp
  | cons a as ih =>
    intro bs
    cases bs with
    | nil => simp
    | cons b bs =>
      simp only [List.zip_cons_cons, List.countP_cons, List.length_cons,
        List.take_succ_cons, ih]

/-- The number of points of the rectangle at (ax,ay) with size aw-by-ah
that lie in a nonempty rectangle S contained in it is the area of S. -/
theorem countP_points_inside (ax ay : Int) (aw ah : Nat) (S : Rectangle)
    (hsw : 0 < S.size.width) (hsh : 0 < S.size.height)
    (hx1 : ax ≤ S.top_left.x) (hy1 : ay ≤ S.top_left.y)
    (hx2 : S.top_left.x + S.size.width ≤ ax + aw)
    (hy2 : S.top_left.y + S.size.height ≤ ay + ah) :
    (Rectangle.points ⟨⟨ax, ay⟩, ⟨aw, ah⟩⟩).countP (fun p => S.contains p) =
      S.size.width * S.size.height := by
  obtain ⟨⟨sx, sy⟩, ⟨sw, sh⟩⟩ := S
  simp only at hsw hsh hx1 hy1 hx2 hy2
  rw [Rectangle.points, countP_flatMap]
  dsimp only
  have hinner : ∀ dy : Nat, ((List.range aw).map
      (fun (dx : Nat) => (⟨ax + (dx : Int), ay + (dy : Int)⟩ : Point))).countP
      (fun p => Rectangle.contains ⟨⟨sx, sy⟩, ⟨sw, sh⟩⟩ p) =
      if decide (sy ≤ ay + (dy : Int) ∧ ay + (dy : Int) ≤ sy + sh - 1)
        then sw else 0 := by
    intro dy
    rw [List.countP_map]
    by_cases hdy : sy ≤ ay + (dy : Int) ∧ ay + (dy : Int) ≤ sy + sh - 1
    · rw [if_pos (decide_eq_true hdy)]
      rw [List.countP_congr (q := fun dx : Nat =>
          decide (sx - ax ≤ (dx : Int) ∧ (dx : Int) ≤ sx + sw - 1 - ax)) ?_]
      · rw [countP_range_int]
        omega
      · intro dx _
        simp only [Function.comp, contains_eq, decide_eq_true_eq]
        omega
    · rw [if_neg (by simpa using hdy)]
      rw [List.countP_eq_zero]
      intro q hq
      simp only [Function.comp, contains_eq, decide_eq_true_eq]
      omega
  rw [List.map_congr_left fun dy _ => hinner dy, sum_map_ite]
  rw [List.countP_congr (q := fun dy : Nat =>
      decide (sy - ay ≤ (dy : Int) ∧ (dy : Int) ≤ sy + sh - 1 - ay)) ?_]
  · rw [countP_range_int]
    have : (min (sy + sh - 1 - ay + 1) ((ah : Int)) - max (sy - ay) 0).toNat
        = sh := by omega
    rw [this, Nat.mul_comm]
  · intro dy _
    simp only [decide_eq_true_eq]
    omega

/-- Explicit form of the intersection of a nonempty rectangle with the
origin-anchored w-by-h box when the two overlap. -/
theorem intersection_char (ax ay : Int) (aw ah w h : Nat)
    (haw : 0 < aw) (hah : 0 < ah) (hw : 0 < w) (hh : 0 < h)
    (hox1 : ax ≤ (w : Int) - 1) (hox2 : 0 ≤ ax + aw - 1)
    (hoy1 : ay ≤ (h : Int) - 1) (hoy2 : 0 ≤ ay + ah - 1) :
    Rectangle.intersection ⟨⟨ax, ay⟩, ⟨aw, ah⟩⟩ ⟨⟨0, 0⟩, ⟨w, h⟩⟩ =
      ⟨⟨max ax 0, max ay 0⟩,
       ⟨(min (ax + aw - 1) ((w : Int) - 1) - max ax 0 + 1).toNat,
        (min (ay + ah - 1) ((h : Int) - 1) - max ay 0 + 1).toNat⟩⟩ := by
  simp only [Rectangle.intersection, Rectangle.bottom_right]
  rw [if_pos ⟨hw, hh⟩, if_pos ⟨haw, hah⟩]
  dsimp only
  rw [if_pos]
  · simp only [Rectangle.with_corners, component_max, component_min]
    simp only [Rectangle.mk.injEq, Point.mk.injEq, Size.mk.injEq]
    refine ⟨⟨by omega, by omega⟩, by omega, by omega⟩
  · constructor <;>
      · simp only [overlapsRange, component_max, component_min,
          decide_eq_true_eq]
        omega

/-- C4: an area fill over a rectangle that overlaps the bounding box only
partially, given one color per rectangle point, programs one window whose
corners are the intersection's and streams exactly the colors paired (in
row-major order) with points of the intersection; their number is the
intersection's area. -/
theorem fill_contiguous_partial (d : Ili9342C) (area : Rectangle)
    (colors : List Nat)
    (h1 : d.interface.failAt = none)
    (h2 : d.width < 65536) (h3 : d.height < 65536)
    (hp : ∃ p : Point,
      area.contains p = true ∧ d.bounding_box.contains p = true)
    (hpart : area ≠ area.intersection d.bounding_box)
    (hlen : colors.length = area.size.width * area.size.height) :
    ∃ i : Iface,
      d.fill_contiguous area colors = .ok { d with interface := i } ∧
      i.sent = d.interface.sent ++ windowStreamEvents
        (area.intersection d.bounding_box).top_left.x.toNat
        (area.intersection d.bounding_box).top_left.y.toNat
        ((area.intersection d.bounding_box).top_left.x +
          (area.intersection d.bounding_box).size.width - 1).toNat
        ((area.intersection d.bounding_box).top_left.y +
          (area.intersection d.bounding_box).size.height - 1).toNat
        (((area.points.zip colors).filter
          (fun pc => (area.intersection d.bounding_box).contains pc.1)).map
            fun pc => pc.2) ∧
      (((area.points.zip colors).filter
        (fun pc => (area.intersection d.bounding_box).contains pc.1)).map
          fun pc => pc.2).length =
        (area.intersection d.bounding_box).size.width *
          (area.intersection d.bounding_box).size.height := by
  obtain ⟨⟨s, n, f⟩, W, Hh, l⟩ := d
  obtain ⟨⟨ax, ay⟩, ⟨aw, ah⟩⟩ := area
  simp only at h1 h2 h3 hlen ⊢
  subst h1
  have hWm : W % 4294967296 = W := Nat.mod_eq_of_lt (by omega)
  have hHm : Hh % 4294967296 = Hh := Nat.mod_eq_of_lt (by omega)
  have hbb : Ili9342C.bounding_box ⟨⟨s, n, none⟩, W, Hh, l⟩ =
      ⟨⟨0, 0⟩, ⟨W, Hh⟩⟩ := by
    simp [Ili9342C.bounding_box, Ili9342C.size, hWm, hHm]
  obtain ⟨p, hpa, hpb⟩ := hp
  rw [hbb] at hpb
  rw [contains_iff] at hpa hpb
  dsimp only at hpa hpb
  obtain ⟨hp1, hp2, hp3, hp4, haw, hah⟩ := hpa
  obtain ⟨hq1, hq2, hq3, hq4, hWp, hHp⟩ := hpb
  have hinter : Rectangle.intersection ⟨⟨ax, ay⟩, ⟨aw, ah⟩⟩
      (Ili9342C.bounding_box ⟨⟨s, n, none⟩, W, Hh, l⟩) =
      ⟨⟨max ax 0, max ay 0⟩,
       ⟨(min (ax + aw - 1) ((W : Int) - 1) - max ax 0 + 1).toNat,
        (min (ay + ah - 1) ((Hh : Int) - 1) - max ay 0 + 1).toNat⟩⟩ := by
    rw [hbb]
    exact intersection_char ax ay aw ah W Hh haw hah hWp hHp
      (by omega) (by omega) (by omega) (by omega)
  rw [hinter] at hpart ⊢
  have hIw : 0 < (min (ax + aw - 1) ((W : Int) - 1) - max ax 0 + 1).toNat := by
    omega
  have hIh : 0 < (min (ay + ah - 1) ((Hh : Int) - 1) - max ay 0 + 1).toNat := by
    omega
  have hbrI : (⟨⟨max ax 0, max ay 0⟩,
      ⟨(min (ax + aw - 1) ((W : Int) - 1) - max ax 0 + 1).toNat,
       (min (ay + ah - 1) ((Hh : Int) - 1) - max ay 0 + 1).toNat⟩⟩ :
        Rectangle).bottom_right =
      some ⟨max ax 0 +
          ((min (ax + aw - 1) ((W : Int) - 1) - max ax 0 + 1).toNat : Int) - 1,
        max ay 0 +
          ((min (ay + ah - 1) ((Hh : Int) - 1) - max ay 0 + 1).toNat : Int) - 1⟩ := by
    simp only [Rectangle.bottom_right]
    rw [if_pos ⟨hIw, hIh⟩]
  have hu1 : u16ofInt (max ax 0) = (max ax 0).toNat := by
    unfold u16ofInt; omega
  have hu2 : u16ofInt (max ay 0) = (max ay 0).toNat := by
    unfold u16ofInt; omega
  have hu3 : u16ofInt (max ax 0 +
      ((min (ax + aw - 1) ((W : Int) - 1) - max ax 0 + 1).toNat : Int) - 1) =
      (max ax 0 +
        ((min (ax + aw - 1) ((W : Int) - 1) - max ax 0 + 1).toNat : Int) - 1).toNat := by
    unfold u16ofInt; omega
  have hu4 : u16ofInt (max ay 0 +
      ((min (ay + ah - 1) ((Hh : Int) - 1) - max ay 0 + 1).toNat : Int) - 1) =
      (max ay 0 +
        ((min (ay + ah - 1) ((Hh : Int) - 1) - max ay 0 + 1).toNat : Int) - 1).toNat := by
    unfold u16ofInt; omega
  have hcount : (((Rectangle.points ⟨⟨ax, ay⟩, ⟨aw, ah⟩⟩).zip colors).filter
      (fun pc => Rectangle.contains ⟨⟨max ax 0, max ay 0⟩,
        ⟨(min (ax + aw - 1) ((W : Int) - 1) - max ax 0 + 1).toNat,
         (min (ay + ah - 1) ((Hh : Int) - 1) - max ay 0 + 1).toNat⟩⟩ pc.1)).length =
      (min (ax + aw - 1) ((W : Int) - 1) - max ax 0 + 1).toNat *
        (min (ay + ah - 1) ((Hh : Int) - 1) - max ay 0 + 1).toNat := by
    have hplen : (Rectangle.points ⟨⟨ax, ay⟩, ⟨aw, ah⟩⟩).length = aw * ah :=
      points_length _
    rw [← List.countP_eq_length_filter, countP_fst_zip, hlen, ← hplen,
      List.take_length]
    exact countP_points_inside ax ay aw ah _ hIw hIh
      (by dsimp only; omega) (by dsimp only; omega)
      (by dsimp only; omega) (by dsimp only; omega)
  refine ⟨⟨s ++ windowStreamEvents (max ax 0).toNat (max ay 0).toNat
      (max ax 0 +
        ((min (ax + aw - 1) ((W : Int) - 1) - max ax 0 + 1).toNat : Int) - 1).toNat
      (max ay 0 +
        ((min (ay + ah - 1) ((Hh : Int) - 1) - max ay 0 + 1).toNat : Int) - 1).toNat
      ((((Rectangle.points ⟨⟨ax, ay⟩, ⟨aw, ah⟩⟩).zip colors).filter
        (fun pc => Rectangle.contains ⟨⟨max ax 0, max ay 0⟩,
          ⟨(min (ax + aw - 1) ((W : Int) - 1) - max ax 0 + 1).toNat,
           (min (ay + ah - 1) ((Hh : Int) - 1) - max ay 0 + 1).toNat⟩⟩ pc.1)).map
        fun pc => pc.2),
    n + 7, none⟩, ?_, ?_, ?_⟩
  · simp only [Ili9342C.fill_contiguous, hinter, hbrI]
    rw [if_neg hpart]
    simp only [hu1, hu2, hu3, hu4]
    exact draw_raw_iter_none s n W Hh l _ _ _ _ _
  · rfl
  · rw [List.length_map]
    exact hcount

/-- Witness for C4: a 2-by-2 rectangle sticking one column out to the
left of a 4-by-4 screen streams the two colors of its in-bounds column
against a window equal to the 1-by-2 intersection. -/
theorem fill_contiguous_partial_witness :
    (∃ p : Point, (⟨⟨-1, 0⟩, ⟨2, 2⟩⟩ : Rectangle).contains p = true ∧
      (⟨⟨[], 0, none⟩, 4, 4, false⟩ : Ili9342C).bounding_box.contains p
        = true) ∧
    (⟨⟨-1, 0⟩, ⟨2, 2⟩⟩ : Rectangle) ≠ Rectangle.intersection
      ⟨⟨-1, 0⟩, ⟨2, 2⟩⟩
      (⟨⟨[], 0, none⟩, 4, 4, false⟩ : Ili9342C).bounding_box ∧
    ∃ i : Iface,
      Ili9342C.fill_contiguous ⟨⟨[], 0, none⟩, 4, 4, false⟩
          ⟨⟨-1, 0⟩, ⟨2, 2⟩⟩ [0xA, 0xB, 0xC, 0xD] =
        .ok { (⟨⟨[], 0, none⟩, 4, 4, false⟩ : Ili9342C) with interface := i } ∧
      i.sent = (⟨⟨[], 0, none⟩, 4, 4, false⟩ : Ili9342C).interface.sent ++
        windowStreamEvents
          (Rectangle.intersection ⟨⟨-1, 0⟩, ⟨2, 2⟩⟩
            (⟨⟨[], 0, none⟩, 4, 4, false⟩ : Ili9342C).bounding_box).top_left.x.toNat
          (Rectangle.intersection ⟨⟨-1, 0⟩, ⟨2, 2⟩⟩
            (⟨⟨[], 0, none⟩, 4, 4, false⟩ : Ili9342C).bounding_box).top_left.y.toNat
          ((Rectangle.intersection ⟨⟨-1, 0⟩, ⟨2, 2⟩⟩
            (⟨⟨[], 0, none⟩, 4, 4, false⟩ : Ili9342C).bounding_box).top_left.x +
            (Rectangle.intersection ⟨⟨-1, 0⟩, ⟨2, 2⟩⟩
              (⟨⟨[], 0, none⟩, 4, 4, false⟩ : Ili9342C).bounding_box).size.width
            - 1).toNat
          ((Rectangle.intersection ⟨⟨-1, 0⟩, ⟨2, 2⟩⟩
            (⟨⟨[], 0, none⟩, 4, 4, false⟩ : Ili9342C).bounding_box).top_left.y +
            (Rectangle.intersection ⟨⟨-1, 0⟩, ⟨2, 2⟩⟩
              (⟨⟨[], 0, none⟩, 4, 4, false⟩ : Ili9342C).bounding_box).size.height
            - 1).toNat
          ((((⟨⟨-1, 0⟩, ⟨2, 2⟩⟩ : Rectangle).points.zip
              [0xA, 0xB, 0xC, 0xD]).filter
            (fun pc => (Rectangle.intersection ⟨⟨-1, 0⟩, ⟨2, 2⟩⟩
              (⟨⟨[], 0, none⟩, 4, 4, false⟩ : Ili9342C).bounding_box).contains
                pc.1)).map fun pc => pc.2) ∧
      ((((⟨⟨-1, 0⟩, ⟨2, 2⟩⟩ : Rectangle).points.zip
          [0xA, 0xB, 0xC, 0xD]).filter
        (fun pc => (Rectangle.intersection ⟨⟨-1, 0⟩, ⟨2, 2⟩⟩
          (⟨⟨[], 0, none⟩, 4, 4, false⟩ : Ili9342C).bounding_box).contains
            pc.1)).map fun pc => pc.2).length =
        (Rectangle.intersection ⟨⟨-1, 0⟩, ⟨2, 2⟩⟩
          (⟨⟨[], 0, none⟩, 4, 4, false⟩ : Ili9342C).bounding_box).size.width *
          (Rectangle.intersection ⟨⟨-1, 0⟩, ⟨2, 2⟩⟩
            (⟨⟨[], 0, none⟩, 4, 4, false⟩ : Ili9342C).bounding_box).size.height :=
  ⟨⟨⟨0, 0⟩, by decide, by decide⟩, by decide,
    fill_contiguous_partial ⟨⟨[], 0, none⟩, 4, 4, false⟩ ⟨⟨-1, 0⟩, ⟨2, 2⟩⟩
      [0xA, 0xB, 0xC, 0xD] rfl (by decide) (by decide)
      ⟨⟨0, 0⟩, by decide, by decide⟩ (by decide) (by decide)⟩

/-- A rectangle without a bottom-right corner contains no point. -/
theorem contains_false_of_none (R : Rectangle) (h : R.bottom_right = none)
    (p : Point) : ¬(R.contains p = true) := by
  intro hc
  rw [contains_iff] at hc
  unfold Rectangle.bottom_right at h
  rw [if_pos ⟨hc.2.2.2.2.1, hc.2.2.2.2.2⟩] at h
  cases h

/-- C10 (amended): an area fill always succeeds, whatever the length of
the color sequence; the number of colors streamed is the number of
points, among the first min(#colors, #points) rectangle points in
row-major order, that lie in the clipped intersection — a short sequence
is silently truncated by the pairing, with no validation or error. -/
theorem fill_contiguous_truncates (d : Ili9342C) (area : Rectangle)
    (colors : List Nat) (h1 : d.interface.failAt = none) :
    ∃ (i : Iface) (x0 y0 x1 y1 : Nat) (ws : List Nat),
      d.fill_contiguous area colors = .ok { d with interface := i } ∧
      ((i.sent = d.interface.sent ∧ ws = []) ∨
        i.sent = d.interface.sent ++ windowStreamEvents x0 y0 x1 y1 ws) ∧
      ws.length = (area.points.take colors.length).countP
        (fun p => (area.intersection d.bounding_box).contains p) := by
  obtain ⟨⟨s, n, f⟩, W, Hh, l⟩ := d
  simp only at h1 ⊢
  subst h1
  rcases hbr : (area.intersection
      (Ili9342C.bounding_box ⟨⟨s, n, none⟩, W, Hh, l⟩)).bottom_right
    with _ | dbr
  · refine ⟨⟨s, n, none⟩, 0, 0, 0, 0, [], ?_, Or.inl ⟨rfl, rfl⟩, ?_⟩
    · simp [Ili9342C.fill_contiguous, hbr]
    · simp only [List.length_nil]
      symm
      rw [List.countP_eq_zero]
      intro q _
      exact contains_false_of_none _ hbr q
  · by_cases heq : area = area.intersection
        (Ili9342C.bounding_box ⟨⟨s, n, none⟩, W, Hh, l⟩)
    · refine ⟨⟨s ++ windowStreamEvents
        (u16ofInt (area.intersection
          (Ili9342C.bounding_box ⟨⟨s, n, none⟩, W, Hh, l⟩)).top_left.x)
        (u16ofInt (area.intersection
          (Ili9342C.bounding_box ⟨⟨s, n, none⟩, W, Hh, l⟩)).top_left.y)
        (u16ofInt dbr.x) (u16ofInt dbr.y)
        ((area.points.zip colors).map fun pc => pc.2), n + 7, none⟩,
        u16ofInt (area.intersection
          (Ili9342C.bounding_box ⟨⟨s, n, none⟩, W, Hh, l⟩)).top_left.x,
        u16ofInt (area.intersection
          (Ili9342C.bounding_box ⟨⟨s, n, none⟩, W, Hh, l⟩)).top_left.y,
        u16ofInt dbr.x, u16ofInt dbr.y,
        ((area.points.zip colors).map fun pc => pc.2), ?_, Or.inr rfl, ?_⟩
      · simp only [Ili9342C.fill_contiguous, hbr]
        rw [if_pos heq]
        exact draw_raw_iter_none s n W Hh l _ _ _ _ _
      · have hall : ∀ q ∈ area.points.take colors.length,
            area.contains q = true := fun q hq =>
          points_mem_contains area q (List.take_subset _ _ hq)
        rw [← heq, List.countP_eq_length.2 hall]
        simp [List.length_take, Nat.min_comm]
    · refine ⟨⟨s ++ windowStreamEvents
        (u16ofInt (area.intersection
          (Ili9342C.bounding_box ⟨⟨s, n, none⟩, W, Hh, l⟩)).top_left.x)
        (u16ofInt (area.intersection
          (Ili9342C.bounding_box ⟨⟨s, n, none⟩, W, Hh, l⟩)).top_left.y)
        (u16ofInt dbr.x) (u16ofInt dbr.y)
        (((area.points.zip colors).filter
          (fun pc => (area.intersection
            (Ili9342C.bounding_box ⟨⟨s, n, none⟩, W, Hh, l⟩)).contains
              pc.1)).map fun pc => pc.2), n + 7, none⟩,
        u16ofInt (area.intersection
          (Ili9342C.bounding_box ⟨⟨s, n, none⟩, W, Hh, l⟩)).top_left.x,
        u16ofInt (area.intersection
          (Ili9342C.bounding_box ⟨⟨s, n, none⟩, W, Hh, l⟩)).top_left.y,
        u16ofInt dbr.x, u16ofInt dbr.y,
        (((area.points.zip colors).filter
          (fun pc => (area.intersection
            (Ili9342C.bounding_box ⟨⟨s, n, none⟩, W, Hh, l⟩)).contains
              pc.1)).map fun pc => pc.2), ?_, Or.inr rfl, ?_⟩
      · simp only [Ili9342C.fill_contiguous, hbr]
        rw [if_neg heq]
        exact draw_raw_iter_none s n W Hh l _ _ _ _ _
      · rw [List.length_map, ← List.countP_eq_length_filter, countP_fst_zip]

/-- Witness for the amended C10: a one-color sequence on a 1-by-2
rectangle straddling the top edge of a 2-by-2 screen streams zero
colors, because the only paired point is the out-of-bounds one. -/
theorem fill_contiguous_truncates_witness :
    (⟨⟨[], 0, none⟩, 2, 2, false⟩ : Ili9342C).interface.failAt = none ∧
    ∃ (i : Iface) (x0 y0 x1 y1 : Nat) (ws : List Nat),
      Ili9342C.fill_contiguous ⟨⟨[], 0, none⟩, 2, 2, false⟩
          ⟨⟨0, -1⟩, ⟨1, 2⟩⟩ [0x1234] =
        .ok { (⟨⟨[], 0, none⟩, 2, 2, false⟩ : Ili9342C) with interface := i } ∧
      ((i.sent = (⟨⟨[], 0, none⟩, 2, 2, false⟩ : Ili9342C).interface.sent ∧
          ws = []) ∨
        i.sent = (⟨⟨[], 0, none⟩, 2, 2, false⟩ : Ili9342C).interface.sent ++
          windowStreamEvents x0 y0 x1 y1 ws) ∧
      ws.length = ((⟨⟨0, -1⟩, ⟨1, 2⟩⟩ : Rectangle).points.take
          ([0x1234] : List Nat).length).countP
        (fun p => ((⟨⟨0, -1⟩, ⟨1, 2⟩⟩ : Rectangle).intersection
          (⟨⟨[], 0, none⟩, 2, 2, false⟩ : Ili9342C).bounding_box).contains p) :=
  ⟨rfl, fill_contiguous_truncates ⟨⟨[], 0, none⟩, 2, 2, false⟩
    ⟨⟨0, -1⟩, ⟨1, 2⟩⟩ [0x1234] rfl⟩

/-- Counterexample to C10 as stated: on a 2-by-2 screen, filling the
1-by-2 rectangle at (0,-1) with the single color 0x1234 streams zero
colors (the final memory-write data event is empty), although the
minimum of the sequence length (1) and the number of rectangle points
surviving the clip (1) is 1. -/
theorem fill_contiguous_min_counterexample :
    Ili9342C.fill_contiguous ⟨⟨[], 0, none⟩, 2, 2, false⟩
        ⟨⟨0, -1⟩, ⟨1, 2⟩⟩ [0x1234] =
      .ok ⟨⟨[.command 0x2a, .data [0, 0, 0, 0], .command 0x2b,
            .data [0, 0, 0, 0], .command 0x2c, .data [], .data []],
          7, none⟩, 2, 2, false⟩ ∧
    min ([0x1234] : List Nat).length
      (((⟨⟨0, -1⟩, ⟨1, 2⟩⟩ : Rectangle).points.filter
        (fun p => ((⟨⟨0, -1⟩, ⟨1, 2⟩⟩ : Rectangle).intersection
          (⟨⟨[], 0, none⟩, 2, 2, false⟩ : Ili9342C).bounding_box).contains
            p)).length) = 1 := by
  constructor
  · rfl
  · decide

end Ili9342
